import Mathlib

/-!
Shallow embedding of the animation/interaction core of
src/CubeGridWithZoom.tsx (the CubeGrid component).

The source keeps all mutable interaction state in closure variables of the
CubeGrid effect (lines 126-143) and mutates it from the event handlers
(lines 150-232) and the per-frame animate loop (lines 244-281).  Here that
state is split into:

* SchedState - the timed row-rotation state machine of the animate loop
  (isRotating, currentRowIndex, rotationStartTime, plus the rotation.y
  value of each of the three row groups).  Timestamps are embedded as
  integers (milliseconds).  The code only ever writes rotation.y values of
  the form progress * (PI / 2) with progress = elapsed / rotationDuration
  and elapsed = time - rotationStartTime an integer, or exactly PI / 2 at
  the snap; every written angle is therefore m * (pi / 2000) for the exact
  integer numerator m = elapsed (m = 1000 at the snap).  The state stores
  that integer numerator and SchedState.angleY recovers the stored angle.
  The code's test progress < 1 is equivalently elapsed < rotationDuration
  (lemma progress_lt_one_iff below), which keeps the whole scheduler
  decidably executable.
* UIState - the drag / pinch / wheel state touched by the event handlers
  (isDragging, previousMousePosition, the group quaternion, the previous
  two-finger touch distance and the zoom target).
* FrameState - the per-frame view used by the animate loop: the group
  Euler angles touched by the auto-spin (group.rotation.x / .y), the
  scheduler state and the two zoom distances.  (three.js keeps the group's
  Euler rotation and its quaternion in sync; the animate loop only writes
  the Euler components, the drag handler only writes the quaternion, so
  each claim is stated against the representation its code writes.)

Numbers are embedded as exact rationals / reals rather than IEEE doubles.
-/

namespace CubeGrid

/-- rotationDuration in ms (line 132). -/
def rotationDuration : ℤ := 1000

/-- pauseDuration in ms (line 133). -/
def pauseDuration : ℤ := 3000

/-- State of the timed row rotation (lines 134-136) together with the
rotation.y of the three row groups (rowsRef.current, initially 0 for a
fresh THREE.Group).  rot0 / rot1 / rot2 store the exact integer numerator
m of the stored angle m * (pi / 2000). -/
structure SchedState where
  isRotating : Bool
  currentRowIndex : ℕ
  rotationStartTime : ℤ
  rot0 : ℤ
  rot1 : ℤ
  rot2 : ℤ
deriving DecidableEq

/-- rowsRef.current[i].rotation.y := v * (pi / 2000).  The code only ever
indexes with currentRowIndex, which stays in 0..2. -/
def writeRot (i : ℕ) (v : ℤ) (s : SchedState) : SchedState :=
  if i = 0 then { s with rot0 := v }
  else if i = 1 then { s with rot1 := v }
  else if i = 2 then { s with rot2 := v }
  else s

/-- Read the numerator of rowsRef.current[i].rotation.y. -/
def rotC (i : ℕ) (s : SchedState) : ℤ :=
  if i = 0 then s.rot0
  else if i = 1 then s.rot1
  else if i = 2 then s.rot2
  else 0

/-- The actual stored rotation.y of row i, in radians: the code writes
progress * (PI / 2) = elapsed * (PI / 2000) while progress < 1 (lines
263-264) and PI / 2 = 1000 * (PI / 2000) at the snap (line 266). -/
noncomputable def angleY (i : ℕ) (s : SchedState) : ℝ :=
  ((rotC i s : ℤ) : ℝ) * (Real.pi / 2000)

/-- Lines 255-258: if (!isRotating && time - rotationStartTime >
pauseDuration) { isRotating = true; rotationStartTime = time }. -/
def pauseCheck (time : ℤ) (s : SchedState) : SchedState :=
  if s.isRotating = false ∧ pauseDuration < time - s.rotationStartTime then
    { s with isRotating := true, rotationStartTime := time }
  else s

/-- Lines 260-271: if (isRotating) { progress = (time - rotationStartTime)
/ rotationDuration; if (progress < 1) rows[i].rotation.y = progress*PI/2
else { rows[i].rotation.y = PI/2; isRotating = false; currentRowIndex =
(currentRowIndex + 1) % 3; rotationStartTime = time } }.  The modulus is
rowsRef.current.length = 3 (three rows are pushed at setup).  The test
progress < 1 is written on the integer numerator elapsed =
time - rotationStartTime; progress_lt_one_iff below checks it agrees with
the source's rational test. -/
def rotateUpdate (time : ℤ) (s : SchedState) : SchedState :=
  if s.isRotating = true then
    let elapsed : ℤ := time - s.rotationStartTime
    if elapsed < rotationDuration then
      writeRot s.currentRowIndex elapsed s
    else
      { writeRot s.currentRowIndex rotationDuration s with
        isRotating := false,
        currentRowIndex := (s.currentRowIndex + 1) % 3,
        rotationStartTime := time }
  else s

/-- One animate tick of the scheduler part (lines 255-271), both ifs in
source order on the same mutable state. -/
def schedStep (time : ℤ) (s : SchedState) : SchedState :=
  rotateUpdate time (pauseCheck time s)

/-- Initial scheduler state (lines 134-136, rows start unrotated). -/
def initSched : SchedState :=
  { isRotating := false, currentRowIndex := 0, rotationStartTime := 0,
    rot0 := 0, rot1 := 0, rot2 := 0 }

/-- One tick plus an observational completion log: a completion is exactly
a change of currentRowIndex (the index is advanced only in the snap
branch, and (i+1) % 3 is never i), and the logged value is the index of
the row that just snapped. -/
def schedLogStep (p : SchedState × List ℕ) (t : ℤ) : SchedState × List ℕ :=
  (schedStep t p.1,
   if (schedStep t p.1).currentRowIndex ≠ p.1.currentRowIndex then
     p.2 ++ [p.1.currentRowIndex]
   else p.2)

/-- Run the scheduler over a list of frame timestamps. -/
def schedSimFrom (ts : List ℤ) (p : SchedState × List ℕ) : SchedState × List ℕ :=
  ts.foldl schedLogStep p

/-- Run from the initial state with an empty log. -/
def schedSim (ts : List ℤ) : SchedState × List ℕ :=
  schedSimFrom ts (initSched, [])

/-- Frame timestamps 0, 100, ..., n * 100 (a 10 fps run). -/
def ticks100 (n : ℕ) : List ℤ :=
  (List.range (n + 1)).map (fun k => (k : ℤ) * 100)

/-- A run covering exactly [0, 12000] ms. -/
def run12000 : List ℤ := ticks100 120

/-- A run extended to 12300 ms. -/
def run12300 : List ℤ := ticks100 123

/-- Runs used to observe the second activation of row 0. -/
def run15300 : List ℤ := ticks100 153

def run15400 : List ℤ := ticks100 154

def run16400 : List ℤ := ticks100 164

/-- Decidable check that a list of timestamps is non-decreasing; the
frame timestamps handed to animate by requestAnimationFrame are
monotone. -/
def ticksMonoB : List ℤ → Bool
  | [] => true
  | [_] => true
  | a :: b :: r => decide (a ≤ b) && ticksMonoB (b :: r)

/-- All three stored numerators lie in [0, rotationDuration]: the
invariant behind C10's angle bounds. -/
def SchedInv (s : SchedState) : Prop :=
  (0 ≤ s.rot0 ∧ s.rot0 ≤ rotationDuration) ∧
  (0 ≤ s.rot1 ∧ s.rot1 ≤ rotationDuration) ∧
  (0 ≤ s.rot2 ∧ s.rot2 ≤ rotationDuration)

/-- Timer lower bounds in terms of the number of logged completions,
together with the completion count bound itself for runs whose
timestamps stay ≤ 12000 (invariant behind C1's count bound). -/
def PhaseLB (p : SchedState × List ℕ) : Prop :=
  (p.1.isRotating = false →
    (rotationDuration + pauseDuration + 1) * (p.2.length : ℤ) ≤ p.1.rotationStartTime) ∧
  (p.1.isRotating = true →
    (rotationDuration + pauseDuration + 1) * (p.2.length : ℤ) + pauseDuration + 1 ≤
      p.1.rotationStartTime) ∧
  p.2.length ≤ 2

noncomputable section

/-- dragRotationSpeed (line 128). -/
def dragRotationSpeed : ℝ := 0.01

/-- wholeCubeRotationSpeed (line 129). -/
def wholeCubeRotationSpeed : ℝ := 0.005

/-- zoomSpeed (line 139). -/
def zoomSpeed : ℝ := 0.1

/-- minZoom (line 140). -/
def minZoom : ℝ := 3

/-- maxZoom (line 141). -/
def maxZoom : ℝ := 20

/-- THREE.Quaternion: four real components. -/
structure Quat where
  x : ℝ
  y : ℝ
  z : ℝ
  w : ℝ

/-- THREE.Quaternion.multiplyQuaternions(a, b): the Hamilton product a*b,
component formulas as in three.js. -/
def qmul (a b : Quat) : Quat :=
  { x := a.x * b.w + a.w * b.x + a.y * b.z - a.z * b.y
    y := a.y * b.w + a.w * b.y + a.z * b.x - a.x * b.z
    z := a.z * b.w + a.w * b.z + a.x * b.y - a.y * b.x
    w := a.w * b.w - a.x * b.x - a.y * b.y - a.z * b.z }

/-- THREE.Quaternion.setFromEuler(new THREE.Euler(ex, ey, ez, XYZ)):
the XYZ branch of setFromEuler in three.js. -/
def setFromEulerXYZ (ex ey ez : ℝ) : Quat :=
  { x := Real.sin (ex / 2) * Real.cos (ey / 2) * Real.cos (ez / 2) +
         Real.cos (ex / 2) * Real.sin (ey / 2) * Real.sin (ez / 2)
    y := Real.cos (ex / 2) * Real.sin (ey / 2) * Real.cos (ez / 2) -
         Real.sin (ex / 2) * Real.cos (ey / 2) * Real.sin (ez / 2)
    z := Real.cos (ex / 2) * Real.cos (ey / 2) * Real.sin (ez / 2) +
         Real.sin (ex / 2) * Real.sin (ey / 2) * Real.cos (ez / 2)
    w := Real.cos (ex / 2) * Real.cos (ey / 2) * Real.cos (ez / 2) -
         Real.sin (ex / 2) * Real.sin (ey / 2) * Real.sin (ez / 2) }

/-- Squared euclidean norm of a quaternion. -/
def normSq (q : Quat) : ℝ := q.x * q.x + q.y * q.y + q.z * q.z + q.w * q.w

/-- Euclidean norm of a quaternion (THREE.Quaternion.length). -/
def qnorm (q : Quat) : ℝ := Real.sqrt (normSq q)

/-- The interaction state touched by the event handlers: isDragging and
previousMousePosition (lines 126-127), the cube group quaternion
(line 174), previousTouchDistance (line 207) and targetZoom (line 142). -/
structure UIState where
  isDragging : Bool
  prevX : ℝ
  prevY : ℝ
  quat : Quat
  previousTouchDistance : ℝ
  targetZoom : ℝ

/-- startDragging (lines 150-153). -/
def startDragging (clientX clientY : ℝ) (s : UIState) : UIState :=
  { s with isDragging := true, prevX := clientX, prevY := clientY }

/-- stopDragging (lines 155-157). -/
def stopDragging (s : UIState) : UIState :=
  { s with isDragging := false }

/-- The Euler angles handed to setFromEuler on a drag move with pixel
delta (dx, dy) (lines 166-172): (dy * dragRotationSpeed,
dx * dragRotationSpeed, 0) in XYZ order. -/
def dragEuler (dx dy : ℝ) : ℝ × ℝ × ℝ :=
  (dy * dragRotationSpeed, dx * dragRotationSpeed, 0)

/-- drag (lines 159-178): when dragging, build the incremental quaternion
from the Euler delta and left-multiply it onto the group quaternion
(group.quaternion.multiplyQuaternions(deltaRotationQuaternion,
group.quaternion)), then update previousMousePosition. -/
def drag (clientX clientY : ℝ) (s : UIState) : UIState :=
  if s.isDragging then
    let e := dragEuler (clientX - s.prevX) (clientY - s.prevY)
    { s with
      quat := qmul (setFromEulerXYZ e.1 e.2.1 e.2.2) s.quat,
      prevX := clientX, prevY := clientY }
  else s

/-- A sequence of mousemove/touchmove drag positions applied in order. -/
def applyDrags (moves : List (ℝ × ℝ)) (s : UIState) : UIState :=
  moves.foldl (fun s m => drag m.1 m.2 s) s

/-- zoom (lines 189-192): targetZoom += delta * zoomSpeed, then clamp to
[minZoom, maxZoom] via Math.max(minZoom, Math.min(maxZoom, targetZoom)). -/
def zoom (delta t : ℝ) : ℝ :=
  max minZoom (min maxZoom (t + delta * zoomSpeed))

/-- The smooth-zoom step of the animate loop (line 274):
currentZoom += (targetZoom - currentZoom) * 0.1. -/
def smoothZoomStep (target current : ℝ) : ℝ :=
  current + (target - current) * 0.1

/-- A touch point: clientX/clientY are used for dragging, pageX/pageY for
the two-finger distance. -/
structure Touch where
  clientX : ℝ
  clientY : ℝ
  pageX : ℝ
  pageY : ℝ

/-- Math.hypot of the coordinate differences (lines 213-216 / 224-227). -/
def touchDistance (t0 t1 : Touch) : ℝ :=
  Real.sqrt ((t0.pageX - t1.pageX) ^ 2 + (t0.pageY - t1.pageY) ^ 2)

/-- onWheel (lines 201-204): always preventDefault, then zoom(deltaY).
The Bool records whether preventDefault was called. -/
def onWheel (deltaY : ℝ) (s : UIState) : Bool × UIState :=
  (true, { s with targetZoom := zoom deltaY s.targetZoom })

/-- onTouchStart (lines 208-218): one touch starts a drag (with
preventDefault); two touches record the pinch distance (no
preventDefault); anything else is ignored. -/
def onTouchStart (touches : List Touch) (s : UIState) : Bool × UIState :=
  match touches with
  | [t] => (true, startDragging t.clientX t.clientY s)
  | [t0, t1] => (false, { s with previousTouchDistance := touchDistance t0 t1 })
  | _ => (false, s)

/-- onTouchMove (lines 219-231): one touch drags (with preventDefault);
two touches zoom by previousTouchDistance - touchDistance and update the
stored distance (no preventDefault); anything else is ignored. -/
def onTouchMove (touches : List Touch) (s : UIState) : Bool × UIState :=
  match touches with
  | [t] => (true, drag t.clientX t.clientY s)
  | [t0, t1] =>
    let d := touchDistance t0 t1
    (false, { s with
              targetZoom := zoom (s.previousTouchDistance - d) s.targetZoom,
              previousTouchDistance := d })
  | _ => (false, s)

/-- camera.position.length() for the initial camera position (6,6,6)
(lines 122, 142): the initial targetZoom and currentZoom. -/
def initialZoom : ℝ := Real.sqrt (6 ^ 2 + 6 ^ 2 + 6 ^ 2)

/-- Initial interaction state (lines 126-127, 142, 207; a fresh
THREE.Group has the identity quaternion). -/
def uiInit : UIState :=
  { isDragging := false, prevX := 0, prevY := 0,
    quat := { x := 0, y := 0, z := 0, w := 1 },
    previousTouchDistance := 0, targetZoom := initialZoom }

/-- The per-frame state seen by the animate loop: isDragging, the group
Euler rotation components written by the auto-spin (lines 249-252), the
scheduler state and the zoom distances (lines 142-143). -/
structure FrameState where
  isDragging : Bool
  rotX : ℝ
  rotY : ℝ
  sched : SchedState
  targetZoom : ℝ
  currentZoom : ℝ

/-- One animate tick (lines 244-277): auto-spin both group Euler angles
unless dragging, then the timed row rotation, then the smooth zoom step.
Drag/zoom events are processed between ticks (single-threaded event
loop); a tick itself never composes a drag rotation. -/
def tick (time : ℤ) (s : FrameState) : FrameState :=
  { s with
    rotX := if s.isDragging then s.rotX else s.rotX + wholeCubeRotationSpeed,
    rotY := if s.isDragging then s.rotY else s.rotY + wholeCubeRotationSpeed,
    sched := schedStep time s.sched,
    currentZoom := smoothZoomStep s.targetZoom s.currentZoom }

/-- Touches used in concrete pinch scenarios. -/
def touchA : Touch := { clientX := 0, clientY := 0, pageX := 0, pageY := 0 }

def touchB : Touch := { clientX := 0, clientY := 0, pageX := 90, pageY := 0 }

/-- A state mid-session with a recorded pinch distance of 100 and a zoom
target of 10. -/
def pinchState : UIState :=
  { uiInit with previousTouchDistance := 100, targetZoom := 10 }

/-- A state mid-session with a recorded pinch distance of 50 and a zoom
target of 10, used for the opening-pinch (pinch-out) direction. -/
def pinchOutState : UIState :=
  { uiInit with previousTouchDistance := 50, targetZoom := 10 }

/-- A mid-drag interaction state with the pointer last seen at (100, 100). -/
def dragState : UIState :=
  { uiInit with isDragging := true, prevX := 100, prevY := 100 }

/-- A frame state mid-drag, used to instantiate C8. -/
def frameEx : FrameState :=
  { isDragging := true, rotX := 0, rotY := 0, sched := initSched,
    targetZoom := 10, currentZoom := 5 }

end

/-! ### Basic facts about writeRot and the scheduler step -/

/-- The integer guard used in rotateUpdate is exactly the source's
progress < 1 with progress = elapsed / rotationDuration. -/
theorem progress_lt_one_iff (elapsed : ℤ) :
    (elapsed : ℚ) / ((rotationDuration : ℤ) : ℚ) < 1 ↔ elapsed < rotationDuration := by
  rw [div_lt_one (by norm_num [rotationDuration])]
  norm_num [rotationDuration]
  exact_mod_cast Iff.rfl

@[simp]
theorem writeRot_isRotating (i : ℕ) (v : ℤ) (s : SchedState) :
    (writeRot i v s).isRotating = s.isRotating := by
  unfold writeRot; split_ifs <;> rfl

@[simp]
theorem writeRot_currentRowIndex (i : ℕ) (v : ℤ) (s : SchedState) :
    (writeRot i v s).currentRowIndex = s.currentRowIndex := by
  unfold writeRot; split_ifs <;> rfl

@[simp]
theorem writeRot_rotationStartTime (i : ℕ) (v : ℤ) (s : SchedState) :
    (writeRot i v s).rotationStartTime = s.rotationStartTime := by
  unfold writeRot; split_ifs <;> rfl

theorem rotC_writeRot_ne {i j : ℕ} (v : ℤ) (s : SchedState) (h : i ≠ j) :
    rotC i (writeRot j v s) = rotC i s := by
  unfold rotC writeRot
  split_ifs <;> simp_all

theorem rotC_writeRot_self {i : ℕ} (v : ℤ) (s : SchedState) (h : i < 3) :
    rotC i (writeRot i v s) = v := by
  unfold rotC writeRot
  split_ifs <;> first | rfl | omega

theorem pauseCheck_of_rotating {s : SchedState} (t : ℤ) (h : s.isRotating = true) :
    pauseCheck t s = s := by
  unfold pauseCheck
  simp [h]

theorem pauseCheck_wait {s : SchedState} {t : ℤ} (_h : s.isRotating = false)
    (h2 : t - s.rotationStartTime ≤ pauseDuration) : pauseCheck t s = s := by
  unfold pauseCheck
  rw [if_neg]
  rintro ⟨-, hlt⟩
  omega

theorem pauseCheck_fire {s : SchedState} {t : ℤ} (h : s.isRotating = false)
    (h2 : pauseDuration < t - s.rotationStartTime) :
    pauseCheck t s = { s with isRotating := true, rotationStartTime := t } := by
  unfold pauseCheck
  rw [if_pos]
  exact ⟨h, h2⟩

/-- Scheduler tick while paused with the pause not yet elapsed: no-op. -/
theorem schedStep_wait {s : SchedState} {t : ℤ} (h : s.isRotating = false)
    (h2 : t - s.rotationStartTime ≤ pauseDuration) : schedStep t s = s := by
  unfold schedStep
  rw [pauseCheck_wait h h2]
  unfold rotateUpdate
  simp [h]

/-- Scheduler tick while paused once the pause has elapsed: the state
becomes rotating with phase start = now, and in the same tick the rotating
branch runs with progress 0, overwriting the active row's angle with 0. -/
theorem schedStep_activate {s : SchedState} {t : ℤ} (h : s.isRotating = false)
    (h2 : pauseDuration < t - s.rotationStartTime) :
    schedStep t s =
      writeRot s.currentRowIndex 0 { s with isRotating := true, rotationStartTime := t } := by
  unfold schedStep
  rw [pauseCheck_fire h h2]
  unfold rotateUpdate
  norm_num [rotationDuration]

/-- Scheduler tick while rotating with progress < 1: only the active
row's angle is overwritten, with elapsed * (pi/2000). -/
theorem schedStep_rotating_progress {s : SchedState} {t : ℤ} (h : s.isRotating = true)
    (h2 : t - s.rotationStartTime < rotationDuration) :
    schedStep t s = writeRot s.currentRowIndex (t - s.rotationStartTime) s := by
  unfold schedStep
  rw [pauseCheck_of_rotating t h]
  unfold rotateUpdate
  rw [if_pos h, if_pos h2]

/-- Scheduler tick while rotating with progress >= 1: the active row
snaps to exactly pi/2, the machine pauses, the index advances mod 3 and
the phase timer restarts at now. -/
theorem schedStep_rotating_complete {s : SchedState} {t : ℤ} (h : s.isRotating = true)
    (h2 : rotationDuration ≤ t - s.rotationStartTime) :
    schedStep t s =
      { writeRot s.currentRowIndex rotationDuration s with
        isRotating := false,
        currentRowIndex := (s.currentRowIndex + 1) % 3,
        rotationStartTime := t } := by
  unfold schedStep
  rw [pauseCheck_of_rotating t h]
  unfold rotateUpdate
  rw [if_pos h, if_neg (not_lt.mpr h2)]

theorem succ_mod_three_ne (n : ℕ) : (n + 1) % 3 ≠ n := by omega

/-! ### The row angles stay in [0, pi/2] (invariant for C10) -/

theorem SchedInv_writeRot {s : SchedState} (h : SchedInv s) {v : ℤ} (i : ℕ)
    (h0 : 0 ≤ v) (h1 : v ≤ rotationDuration) : SchedInv (writeRot i v s) := by
  obtain ⟨ha, hb, hc⟩ := h
  unfold writeRot
  split_ifs <;> exact ⟨by simp_all, by simp_all, by simp_all⟩

/-- SchedInv only mentions the rot fields, which the bookkeeping record
update of the snap branch leaves untouched. -/
theorem SchedInv_update {s : SchedState} (h : SchedInv s) (b : Bool) (i : ℕ) (t : ℤ) :
    SchedInv { s with isRotating := b, currentRowIndex := i, rotationStartTime := t } := h

/-- One tick preserves the angle bounds, provided the frame timestamp is
not before the current phase start; and the phase start never moves past
the current timestamp. -/
theorem schedStep_inv {s : SchedState} {t : ℤ} (h : SchedInv s)
    (ht : s.rotationStartTime ≤ t) :
    SchedInv (schedStep t s) ∧ (schedStep t s).rotationStartTime ≤ t := by
  by_cases hr : s.isRotating = true
  · by_cases hlt : t - s.rotationStartTime < rotationDuration
    · rw [schedStep_rotating_progress hr hlt]
      exact ⟨SchedInv_writeRot h _ (by omega) (by omega), by simpa using ht⟩
    · rw [schedStep_rotating_complete hr (not_lt.mp hlt)]
      exact ⟨SchedInv_update (SchedInv_writeRot h _ (by norm_num [rotationDuration]) le_rfl) _ _ _,
        le_refl t⟩
  · have hr' : s.isRotating = false := by revert hr; cases s.isRotating <;> simp
    by_cases hp : pauseDuration < t - s.rotationStartTime
    · rw [schedStep_activate hr' hp]
      refine ⟨SchedInv_writeRot (SchedInv_update h _ _ _) _ le_rfl (by norm_num [rotationDuration]), ?_⟩
      simp
    · rw [schedStep_wait hr' (not_lt.mp hp)]
      exact ⟨h, ht⟩

theorem ticksMonoB_cons_cons {a b : ℤ} {r : List ℤ} :
    ticksMonoB (a :: b :: r) = true ↔ a ≤ b ∧ ticksMonoB (b :: r) = true := by
  simp [ticksMonoB]

/-- Running the scheduler over monotone timestamps that start after the
current phase start preserves the angle bounds. -/
theorem schedSimFrom_inv :
    ∀ (ts : List ℤ) (p : SchedState × List ℕ) (t0 : ℤ), SchedInv p.1 →
      p.1.rotationStartTime ≤ t0 → ticksMonoB (t0 :: ts) = true →
      SchedInv (schedSimFrom ts p).1 := by
  intro ts
  induction ts with
  | nil => intro p t0 h _ _; exact h
  | cons t rest ih =>
    intro p t0 h hle hmono
    obtain ⟨h01, hmono'⟩ := ticksMonoB_cons_cons.mp hmono
    have hstep := schedStep_inv h (le_trans hle h01)
    have : schedSimFrom (t :: rest) p = schedSimFrom rest (schedLogStep p t) := rfl
    rw [this]
    exact ih (schedLogStep p t) t hstep.1 hstep.2 hmono'

theorem SchedInv_initSched : SchedInv initSched := by
  refine ⟨⟨le_refl 0, ?_⟩, ⟨le_refl 0, ?_⟩, ⟨le_refl 0, ?_⟩⟩ <;> norm_num [initSched, rotationDuration]

theorem rotC_of_SchedInv {s : SchedState} (h : SchedInv s) (i : ℕ) :
    0 ≤ rotC i s ∧ rotC i s ≤ rotationDuration := by
  obtain ⟨ha, hb, hc⟩ := h
  unfold rotC
  split_ifs <;> first | assumption | exact ⟨le_refl 0, by norm_num [rotationDuration]⟩

/-! ### Completion-count lower bounds (for C1)

After the k-th completion the phase timer is at least k * 4001: the pause
check uses a strict inequality, so becoming rotating costs at least
pauseDuration + 1 ms beyond the phase start, and completing costs at
least rotationDuration more.  Hence a third completion cannot happen at a
timestamp <= 3 * (rotationDuration + pauseDuration) = 12000. -/

theorem schedLogStep_fst (p : SchedState × List ℕ) (t : ℤ) :
    (schedLogStep p t).1 = schedStep t p.1 := rfl

theorem schedLogStep_phase (p : SchedState × List ℕ) (t : ℤ)
    (ht : t ≤ 3 * (rotationDuration + pauseDuration)) (hp : PhaseLB p) :
    PhaseLB (schedLogStep p t) := by
  obtain ⟨hpause, hrot, hlen⟩ := hp
  by_cases hr : p.1.isRotating = true
  · by_cases hlt : t - p.1.rotationStartTime < rotationDuration
    · -- mid-rotation write: index, timer and log unchanged
      unfold schedLogStep
      rw [schedStep_rotating_progress hr hlt]
      rw [if_neg (by simp)]
      refine ⟨by simpa using hpause, by simpa using hrot, hlen⟩
    · -- completion: one more log entry, timer restarts at t >= 4001 * (n+1)
      have hc := hrot hr
      have hdone : rotationDuration ≤ t - p.1.rotationStartTime := not_lt.mp hlt
      unfold schedLogStep
      rw [schedStep_rotating_complete hr hdone]
      rw [if_pos (by simpa using succ_mod_three_ne p.1.currentRowIndex)]
      have hlen1 : ((p.2 ++ [p.1.currentRowIndex]).length : ℤ) = (p.2.length : ℤ) + 1 := by
        simp
      refine ⟨?_, by intro hfalse; simp at hfalse, ?_⟩
      · intro _
        simp only [hlen1]
        simp only [rotationDuration, pauseDuration] at *
        omega
      · -- if the count were already 2 the completion would need t >= 12003
        simp only [List.length_append, List.length_cons, List.length_nil]
        simp only [rotationDuration, pauseDuration] at *
        omega
  · have hr' : p.1.isRotating = false := by revert hr; cases p.1.isRotating <;> simp
    by_cases hfire : pauseDuration < t - p.1.rotationStartTime
    · -- pause elapsed: become rotating at start = t, no completion
      unfold schedLogStep
      rw [schedStep_activate hr' hfire]
      rw [if_neg (by simp)]
      have hbase := hpause hr'
      refine ⟨by intro hfalse; simp at hfalse, ?_, hlen⟩
      intro _
      simp only [writeRot_rotationStartTime]
      simp only [rotationDuration, pauseDuration] at *
      omega
    · unfold schedLogStep
      rw [schedStep_wait hr' (not_lt.mp hfire)]
      rw [if_neg (by simp)]
      exact ⟨hpause, hrot, hlen⟩

theorem schedSimFrom_phase :
    ∀ (ts : List ℤ) (p : SchedState × List ℕ),
      (∀ t ∈ ts, t ≤ 3 * (rotationDuration + pauseDuration)) → PhaseLB p →
      PhaseLB (schedSimFrom ts p) := by
  intro ts
  induction ts with
  | nil => intro p _ hp; exact hp
  | cons t rest ih =>
    intro p hts hp
    have : schedSimFrom (t :: rest) p = schedSimFrom rest (schedLogStep p t) := rfl
    rw [this]
    exact ih (schedLogStep p t) (fun u hu => hts u (List.mem_cons_of_mem t hu))
      (schedLogStep_phase p t (hts t (List.mem_cons_self t rest)) hp)

theorem PhaseLB_init : PhaseLB (initSched, []) := by
  refine ⟨fun _ => ?_, fun h => ?_, by simp⟩
  · simp [initSched]
  · exact absurd h (by simp [initSched])

/-! ### Quaternion norm preservation (for C4) -/

theorem normSq_qmul (a b : Quat) : normSq (qmul a b) = normSq a * normSq b := by
  unfold normSq qmul
  ring

theorem normSq_setFromEulerXYZ (ex ey ez : ℝ) : normSq (setFromEulerXYZ ex ey ez) = 1 := by
  have h1 := Real.sin_sq_add_cos_sq (ex / 2)
  have h2 := Real.sin_sq_add_cos_sq (ey / 2)
  have h3 := Real.sin_sq_add_cos_sq (ez / 2)
  simp only [normSq, setFromEulerXYZ]
  linear_combination
    (Real.sin (ey / 2) ^ 2 + Real.cos (ey / 2) ^ 2) *
        (Real.sin (ez / 2) ^ 2 + Real.cos (ez / 2) ^ 2) * h1 +
      (Real.sin (ez / 2) ^ 2 + Real.cos (ez / 2) ^ 2) * h2 + h3

theorem normSq_nonneg (q : Quat) : 0 ≤ normSq q := by
  unfold normSq
  nlinarith [sq_nonneg q.x, sq_nonneg q.y, sq_nonneg q.z, sq_nonneg q.w]

theorem normSq_drag (clientX clientY : ℝ) (s : UIState) :
    normSq (drag clientX clientY s).quat = normSq s.quat := by
  unfold drag
  split_ifs
  · simp only [normSq_qmul, normSq_setFromEulerXYZ, one_mul]
  · rfl

theorem normSq_applyDrags (moves : List (ℝ × ℝ)) :
    ∀ s : UIState, normSq (applyDrags moves s).quat = normSq s.quat := by
  induction moves with
  | nil => intro s; rfl
  | cons m rest ih =>
    intro s
    have : applyDrags (m :: rest) s = applyDrags rest (drag m.1 m.2 s) := rfl
    rw [this, ih, normSq_drag]

/-! ### Zoom clamping and smoothing (for C5, C6, C7) -/

theorem zoom_le_maxZoom (delta t : ℝ) : zoom delta t ≤ maxZoom := by
  unfold zoom
  exact max_le (by norm_num [minZoom, maxZoom]) (min_le_left _ _)

theorem minZoom_le_zoom (delta t : ℝ) : minZoom ≤ zoom delta t :=
  le_max_left _ _

theorem le_zoom_of_nonneg {delta t : ℝ} (hd : 0 ≤ delta) (_h1 : minZoom ≤ t)
    (h2 : t ≤ maxZoom) : t ≤ zoom delta t := by
  unfold zoom
  have : t ≤ min maxZoom (t + delta * zoomSpeed) := by
    refine le_min h2 ?_
    have : 0 ≤ delta * zoomSpeed := mul_nonneg hd (by norm_num [zoomSpeed])
    linarith
  exact le_trans this (le_max_right _ _)

theorem zoom_le_of_nonpos {delta t : ℝ} (hd : delta ≤ 0) (h1 : minZoom ≤ t)
    (_h2 : t ≤ maxZoom) : zoom delta t ≤ t := by
  unfold zoom
  refine max_le h1 (le_trans (min_le_right _ _) ?_)
  have : delta * zoomSpeed ≤ 0 := by
    have hz : (0 : ℝ) ≤ zoomSpeed := by norm_num [zoomSpeed]
    nlinarith
  linarith

theorem smoothZoomStep_gap (target c : ℝ) :
    target - smoothZoomStep target c = (target - c) * 0.9 := by
  unfold smoothZoomStep
  ring

theorem smoothZoomStep_iterate_gap (target c : ℝ) (n : ℕ) :
    |target - (smoothZoomStep target)^[n] c| = |target - c| * 0.9 ^ n := by
  induction n with
  | zero => simp
  | succ k ih =>
    rw [Function.iterate_succ_apply', smoothZoomStep_gap, abs_mul]
    rw [ih]
    rw [abs_of_nonneg (by norm_num : (0.9:ℝ) ≥ 0)]
    ring

/-- The two-finger distance of the concrete touches used below. -/
theorem touchDistance_AB : touchDistance touchA touchB = 90 := by
  unfold touchDistance touchA touchB
  rw [show ((0:ℝ) - 90) ^ 2 + ((0:ℝ) - 0) ^ 2 = 90 ^ 2 by norm_num]
  exact Real.sqrt_sq (by norm_num)

/-! ### Claim theorems -/

set_option maxRecDepth 40000

/-- Claim C1, counterexample: over frame ticks covering exactly
3 * (rotationDuration + pauseDuration) = 12000 ms (here 10 fps ticks
0, 100, ..., 12000), only layers 0 and 1 complete a rotation; layer 2's
rotation is still in progress, so the 3 layers are NOT each rotated once
within the stated window. -/
theorem c1_counterexample :
    (∀ t ∈ run12000, t ≤ 3 * (rotationDuration + pauseDuration)) ∧
    (schedSim run12000).2 = [0, 1] ∧ (schedSim run12000).2 ≠ [0, 1, 2] := by
  refine ⟨by decide, by decide, by decide⟩

/-- Claim C1, amended: because the pause check uses a strict inequality
and ticks are discrete, each phase lasts strictly longer than its nominal
duration, so NO run of frame ticks all ≤ 12000 ms can complete more than
two layer rotations; over a run extended slightly past 12000 ms (10 fps
ticks 0, 100, ..., 12300) each of the 3 layers is rotated exactly once,
in order 0, 1, 2, each rotation ending with the layer's angle snapped to
exactly pi/2, after which the active index has advanced (i+1) mod 3
(ending back at 0) and the pause timer restarts at the completion tick. -/
theorem c1_layer_cycle :
    (∀ ts : List ℤ, (∀ t ∈ ts, t ≤ 3 * (rotationDuration + pauseDuration)) →
        (schedSim ts).2.length ≤ 2) ∧
    (schedSim run12300).2 = [0, 1, 2] ∧
    angleY 0 (schedSim run12300).1 = Real.pi / 2 ∧
    angleY 1 (schedSim run12300).1 = Real.pi / 2 ∧
    angleY 2 (schedSim run12300).1 = Real.pi / 2 ∧
    (schedSim run12300).1.currentRowIndex = 0 ∧
    (schedSim run12300).1.isRotating = false ∧
    (schedSim run12300).1.rotationStartTime = 12300 := by
  have hS : schedSim run12300 =
      ({ isRotating := false, currentRowIndex := 0, rotationStartTime := 12300,
         rot0 := 1000, rot1 := 1000, rot2 := 1000 }, [0, 1, 2]) := by decide
  refine ⟨?_, ?_, ?_, ?_, ?_, ?_, ?_, ?_⟩
  · intro ts hts
    exact (schedSimFrom_phase ts (initSched, []) hts PhaseLB_init).2.2
  · rw [hS]
  · rw [hS]; simp [angleY, rotC]; ring
  · rw [hS]; simp [angleY, rotC]; ring
  · rw [hS]; simp [angleY, rotC]; ring
  · rw [hS]
  · rw [hS]
  · rw [hS]

/-- Claim C1 witness: the completion-count bound applied to the concrete
run over [0, 12000]. -/
theorem c1_layer_cycle_wit : (schedSim run12000).2.length ≤ 2 :=
  c1_layer_cycle.1 run12000 (by decide)

/-- Claim C2, counterexample: the drag from (100,100) to (110,105) has
pixel delta (dx,dy) = (10,5), so the Euler angles handed to setFromEuler
are (5 * 0.01, 10 * 0.01, 0) = (0.05, 0.10, 0), NOT the claimed
(0.05 * 0.01, 0.10 * 0.01, 0). -/
theorem c2_counterexample :
    dragEuler (110 - 100) (105 - 100) ≠ ((0.05 * 0.01 : ℝ), (0.10 * 0.01 : ℝ), (0 : ℝ)) := by
  simp only [dragEuler, dragRotationSpeed, Prod.mk.injEq, not_and]
  intro h
  norm_num at h

/-- Claim C2, amended: on every drag move the incremental quaternion is
built from Euler angles (dy * dragRotationSpeed, dx * dragRotationSpeed,
0) in XYZ order and left-multiplied onto the current orientation
(Q' = deltaQ * Q); the drag from (100,100) to (110,105) with
dragRotationSpeed = 0.01 yields the incremental Euler angles
(5 * 0.01, 10 * 0.01, 0) = (0.05, 0.10, 0) about (X, Y, Z). -/
theorem c2_drag_left_multiply :
    (∀ (s : UIState) (clientX clientY : ℝ), s.isDragging = true →
        (drag clientX clientY s).quat =
          qmul (setFromEulerXYZ ((clientY - s.prevY) * dragRotationSpeed)
                  ((clientX - s.prevX) * dragRotationSpeed) 0) s.quat) ∧
    dragEuler (110 - 100) (105 - 100) =
      ((5 : ℝ) * dragRotationSpeed, (10 : ℝ) * dragRotationSpeed, 0) ∧
    ((5 : ℝ) * dragRotationSpeed, (10 : ℝ) * dragRotationSpeed, (0 : ℝ)) =
      (0.05, 0.10, (0 : ℝ)) := by
  refine ⟨?_, ?_, ?_⟩
  · intro s cx cy h
    simp [drag, dragEuler, h]
  · norm_num [dragEuler]
  · norm_num [dragRotationSpeed]

/-- Claim C2 witness: the composition rule applied at the concrete
mid-drag state. -/
theorem c2_drag_left_multiply_wit :
    (drag 110 105 dragState).quat =
      qmul (setFromEulerXYZ ((105 - dragState.prevY) * dragRotationSpeed)
              ((110 - dragState.prevX) * dragRotationSpeed) 0) dragState.quat :=
  c2_drag_left_multiply.1 dragState 110 105 rfl

/-- Claim C3, counterexample: layer 0 completes its second rotation by
16400 ms (completion log [0,1,2,0]), yet its stored angle is pi/2, not
2 * (pi/2) as the accumulation claim demands; moreover at its
re-activation tick (15400 ms) its angle was overwritten with 0, i.e. the
layer restarts from 0 rather than continuing from its settled angle. -/
theorem c3_counterexample :
    (schedSim run16400).2 = [0, 1, 2, 0] ∧
    angleY 0 (schedSim run16400).1 = Real.pi / 2 ∧
    angleY 0 (schedSim run16400).1 ≠ 2 * (Real.pi / 2) ∧
    angleY 0 (schedSim run15300).1 = Real.pi / 2 ∧
    angleY 0 (schedSim run15400).1 = 0 := by
  have h16 : schedSim run16400 =
      ({ isRotating := false, currentRowIndex := 1, rotationStartTime := 16400,
         rot0 := 1000, rot1 := 1000, rot2 := 1000 }, [0, 1, 2, 0]) := by decide
  have h153 : schedSim run15300 =
      ({ isRotating := false, currentRowIndex := 0, rotationStartTime := 12300,
         rot0 := 1000, rot1 := 1000, rot2 := 1000 }, [0, 1, 2]) := by decide
  have h154 : schedSim run15400 =
      ({ isRotating := true, currentRowIndex := 0, rotationStartTime := 15400,
         rot0 := 0, rot1 := 1000, rot2 := 1000 }, [0, 1, 2]) := by decide
  refine ⟨by rw [h16], ?_, ?_, ?_, ?_⟩
  · rw [h16]
    show ((1000 : ℤ) : ℝ) * (Real.pi / 2000) = Real.pi / 2
    push_cast; ring
  · rw [h16]
    show ((1000 : ℤ) : ℝ) * (Real.pi / 2000) ≠ 2 * (Real.pi / 2)
    intro h
    have hpi := Real.pi_pos
    push_cast at h
    linarith
  · rw [h153]
    show ((1000 : ℤ) : ℝ) * (Real.pi / 2000) = Real.pi / 2
    push_cast; ring
  · rw [h154]
    show ((0 : ℤ) : ℝ) * (Real.pi / 2000) = 0
    push_cast; ring

/-- Claim C3, amended: only the active layer's rotation is written by a
scheduler tick — every other layer retains its angle — and each completed
rotation ends with the layer's angle set to exactly pi/2; but angles do
NOT accumulate: a re-activated layer's angle is overwritten starting from
0, and after its k-th completed rotation the angle is again exactly pi/2
(not k * 90 degrees). -/
theorem c3_settled_angles :
    (∀ (t : ℤ) (s : SchedState) (i : ℕ), i ≠ s.currentRowIndex →
        rotC i (schedStep t s) = rotC i s) ∧
    (schedSim run16400).2 = [0, 1, 2, 0] ∧
    angleY 0 (schedSim run15400).1 = 0 ∧
    angleY 0 (schedSim run16400).1 = Real.pi / 2 := by
  refine ⟨?_, by decide, ?_, ?_⟩
  · intro t s i hne
    by_cases hr : s.isRotating = true
    · by_cases hlt : t - s.rotationStartTime < rotationDuration
      · rw [schedStep_rotating_progress hr hlt, rotC_writeRot_ne _ _ hne]
      · rw [schedStep_rotating_complete hr (not_lt.mp hlt)]
        exact rotC_writeRot_ne _ _ hne
    · have hr' : s.isRotating = false := by revert hr; cases s.isRotating <;> simp
      by_cases hp : pauseDuration < t - s.rotationStartTime
      · rw [schedStep_activate hr' hp]
        exact rotC_writeRot_ne _ _ hne
      · rw [schedStep_wait hr' (not_lt.mp hp)]
  · have h154 : schedSim run15400 =
        ({ isRotating := true, currentRowIndex := 0, rotationStartTime := 15400,
           rot0 := 0, rot1 := 1000, rot2 := 1000 }, [0, 1, 2]) := by decide
    rw [h154]; simp [angleY, rotC]
  · have h16 : schedSim run16400 =
        ({ isRotating := false, currentRowIndex := 1, rotationStartTime := 16400,
           rot0 := 1000, rot1 := 1000, rot2 := 1000 }, [0, 1, 2, 0]) := by decide
    rw [h16]; simp [angleY, rotC]; ring

/-- Claim C3 witness: a non-active layer's angle is untouched by a tick. -/
theorem c3_settled_angles_wit : rotC 1 (schedStep 0 initSched) = rotC 1 initSched :=
  c3_settled_angles.1 0 initSched 1 (by decide)

/-- Claim C4 (confirmed): drag composition multiplies the orientation by
a quaternion built from sines and cosines, which has unit norm, and the
Hamilton product is multiplicative on norms; hence over any sequence of
drag moves the grid orientation quaternion keeps norm exactly 1, in
particular within every positive epsilon of 1. -/
theorem c4_quat_norm_stays_unit (moves : List (ℝ × ℝ)) (s : UIState) (ε : ℝ)
    (hq : qnorm s.quat = 1) (hε : 0 < ε) :
    |qnorm (applyDrags moves s).quat - 1| < ε := by
  have hsq : normSq s.quat = 1 := Real.sqrt_eq_one.mp hq
  have h2 : normSq (applyDrags moves s).quat = 1 := by
    rw [normSq_applyDrags]; exact hsq
  have h3 : qnorm (applyDrags moves s).quat = 1 := by
    unfold qnorm; rw [h2]; exact Real.sqrt_one
  rw [h3]
  simpa using hε

/-- Claim C4 witness: a concrete one-move drag sequence from the initial
(identity, unit-norm) orientation. -/
theorem c4_quat_norm_stays_unit_wit :
    qnorm uiInit.quat = 1 ∧ (0 : ℝ) < 1 ∧
      |qnorm (applyDrags [(110, 105)] uiInit).quat - 1| < 1 := by
  have h : qnorm uiInit.quat = 1 := by
    have : normSq uiInit.quat = 1 := by norm_num [normSq, uiInit]
    unfold qnorm; rw [this]; exact Real.sqrt_one
  exact ⟨h, by norm_num, c4_quat_norm_stays_unit [(110, 105)] uiInit 1 h (by norm_num)⟩

/-- Claim C5 (confirmed): applying a zoom delta sets targetZoom to
clamp(target + delta * zoomSpeed, minZoom, maxZoom), so the target always
lands inside [minZoom, maxZoom]; and a wheel delta of +100 with
zoomSpeed = 0.1 from target 10 yields exactly 20 (= maxZoom). -/
theorem c5_zoom_clamped :
    (∀ delta t : ℝ, minZoom ≤ t → t ≤ maxZoom →
        minZoom ≤ zoom delta t ∧ zoom delta t ≤ maxZoom) ∧
    (∀ delta t : ℝ, zoom delta t = max minZoom (min maxZoom (t + delta * zoomSpeed))) ∧
    zoom 100 10 = 20 := by
  refine ⟨fun d t _ _ => ⟨minZoom_le_zoom d t, zoom_le_maxZoom d t⟩, fun d t => rfl, ?_⟩
  unfold zoom
  norm_num [minZoom, maxZoom, zoomSpeed, min_def, max_def]

/-- Claim C5 witness: the clamp bounds at the scenario input. -/
theorem c5_zoom_clamped_wit :
    minZoom ≤ (10 : ℝ) ∧ (10 : ℝ) ≤ maxZoom ∧
      (minZoom ≤ zoom 100 10 ∧ zoom 100 10 ≤ maxZoom) :=
  ⟨by norm_num [minZoom], by norm_num [maxZoom],
    c5_zoom_clamped.1 100 10 (by norm_num [minZoom]) (by norm_num [maxZoom])⟩

/-- Claim C6 (confirmed): each frame tick applies
currentZoom += (targetZoom - currentZoom) * 0.1, so the gap to the target
shrinks by the exact factor 0.9 per tick, and for every epsilon > 0 there
is a bound N after which every further zero-delta tick leaves
currentZoom within epsilon of targetZoom. -/
theorem c6_zoom_smoothing_converges :
    (∀ (time : ℤ) (s : FrameState),
        (tick time s).currentZoom = s.currentZoom + (s.targetZoom - s.currentZoom) * 0.1) ∧
    (∀ target c : ℝ, target - smoothZoomStep target c = (target - c) * 0.9) ∧
    (∀ (target c : ℝ) (n : ℕ),
        |target - (smoothZoomStep target)^[n] c| = |target - c| * 0.9 ^ n) ∧
    (∀ target c ε : ℝ, 0 < ε → ∃ N : ℕ, ∀ n, N ≤ n →
        |target - (smoothZoomStep target)^[n] c| < ε) := by
  refine ⟨fun t s => rfl, smoothZoomStep_gap, smoothZoomStep_iterate_gap, ?_⟩
  intro target c ε hε
  have hM0 : 0 < |target - c| + 1 := by positivity
  obtain ⟨N, hN⟩ :=
    exists_pow_lt_of_lt_one (div_pos hε hM0) (by norm_num : (0.9 : ℝ) < 1)
  refine ⟨N, fun n hn => ?_⟩
  rw [smoothZoomStep_iterate_gap]
  have hpow : (0.9 : ℝ) ^ n ≤ 0.9 ^ N :=
    pow_le_pow_of_le_one (by norm_num) (by norm_num) hn
  have h1 : |target - c| * 0.9 ^ n ≤ (|target - c| + 1) * 0.9 ^ N := by
    apply mul_le_mul (by linarith [abs_nonneg (target - c)]) hpow (by positivity)
      (by linarith [abs_nonneg (target - c)])
  have h2 : (|target - c| + 1) * 0.9 ^ N < (|target - c| + 1) * (ε / (|target - c| + 1)) :=
    mul_lt_mul_of_pos_left hN hM0
  have h3 : (|target - c| + 1) * (ε / (|target - c| + 1)) = ε := by
    rw [mul_comm]
    exact div_mul_cancel₀ ε (ne_of_gt hM0)
  linarith

/-- Claim C6 witness: convergence within 1 for target 5 from 0. -/
theorem c6_zoom_smoothing_converges_wit :
    (0 : ℝ) < 1 ∧ ∃ N : ℕ, ∀ n, N ≤ n → |5 - (smoothZoomStep 5)^[n] 0| < 1 :=
  ⟨by norm_num, c6_zoom_smoothing_converges.2.2.2 5 0 1 (by norm_num)⟩

/-- Claim C7, counterexample: a two-finger move whose distance shrinks
from 100 to 90 (fingers closing) produces the POSITIVE delta
100 - 90 = 10, and uiState.targetZoom moves from 10 up to 11 — the camera
distance target increases, i.e. pinch-in zooms OUT, contradicting the
claimed negative-delta / pinch-in-zooms-in convention. -/
theorem c7_counterexample :
    0 < pinchState.previousTouchDistance - touchDistance touchA touchB ∧
    (onTouchMove [touchA, touchB] pinchState).2.targetZoom = 11 ∧
    pinchState.targetZoom < (onTouchMove [touchA, touchB] pinchState).2.targetZoom := by
  have hz : (onTouchMove [touchA, touchB] pinchState).2.targetZoom = 11 := by
    show zoom (pinchState.previousTouchDistance - touchDistance touchA touchB)
        pinchState.targetZoom = 11
    rw [touchDistance_AB]
    show zoom ((100 : ℝ) - 90) 10 = 11
    norm_num [zoom, minZoom, maxZoom, zoomSpeed, min_def, max_def]
  refine ⟨?_, hz, ?_⟩
  · rw [touchDistance_AB]
    show (0 : ℝ) < 100 - 90
    norm_num
  · rw [hz]
    show (10 : ℝ) < 11
    norm_num

/-- Claim C7, amended: the pinch delta handed to zoom is
previousTouchDistance - touchDistance (true as claimed), but the sign
convention is the opposite of the claim: closing the fingers makes the
delta POSITIVE and an in-bounds target never decreases under a
nonnegative delta (pinch-in zooms OUT), while opening the fingers makes
the delta NEGATIVE and an in-bounds target never increases under a
nonpositive delta (pinch-out zooms IN) — consistent with the wheel path,
where the same zoom is fed the raw deltaY, so a positive (wheel-down)
deltaY likewise increases the distance target and a negative (wheel-up)
deltaY decreases it. -/
theorem c7_pinch_sign :
    (∀ (t0 t1 : Touch) (s : UIState),
        (onTouchMove [t0, t1] s).2.targetZoom =
          zoom (s.previousTouchDistance - touchDistance t0 t1) s.targetZoom ∧
        (onTouchMove [t0, t1] s).2.previousTouchDistance = touchDistance t0 t1) ∧
    (∀ (t0 t1 : Touch) (s : UIState), touchDistance t0 t1 < s.previousTouchDistance →
        0 < s.previousTouchDistance - touchDistance t0 t1) ∧
    (∀ (t0 t1 : Touch) (s : UIState), s.previousTouchDistance < touchDistance t0 t1 →
        s.previousTouchDistance - touchDistance t0 t1 < 0) ∧
    (∀ delta t : ℝ, 0 ≤ delta → minZoom ≤ t → t ≤ maxZoom → t ≤ zoom delta t) ∧
    (∀ delta t : ℝ, delta ≤ 0 → minZoom ≤ t → t ≤ maxZoom → zoom delta t ≤ t) ∧
    (∀ (deltaY : ℝ) (s : UIState),
        (onWheel deltaY s).2.targetZoom = zoom deltaY s.targetZoom) ∧
    (∀ (t0 t1 : Touch) (s : UIState), touchDistance t0 t1 < s.previousTouchDistance →
        minZoom ≤ s.targetZoom → s.targetZoom ≤ maxZoom →
        s.targetZoom ≤ (onTouchMove [t0, t1] s).2.targetZoom) ∧
    (∀ (t0 t1 : Touch) (s : UIState), s.previousTouchDistance < touchDistance t0 t1 →
        minZoom ≤ s.targetZoom → s.targetZoom ≤ maxZoom →
        (onTouchMove [t0, t1] s).2.targetZoom ≤ s.targetZoom) := by
  refine ⟨fun t0 t1 s => ⟨rfl, rfl⟩, fun t0 t1 s h => by linarith,
    fun t0 t1 s h => by linarith,
    fun d t hd h1 h2 => le_zoom_of_nonneg hd h1 h2,
    fun d t hd h1 h2 => zoom_le_of_nonpos hd h1 h2,
    fun d s => rfl, ?_, ?_⟩
  · intro t0 t1 s h h1 h2
    exact le_zoom_of_nonneg (by linarith) h1 h2
  · intro t0 t1 s h h1 h2
    exact zoom_le_of_nonpos (by linarith) h1 h2

/-- Claim C7 witness: the positive closing-pinch delta, the negative
opening-pinch delta, and the target moving the corresponding way (neither
below nor above its previous value) at concrete inputs. -/
theorem c7_pinch_sign_wit :
    0 < pinchState.previousTouchDistance - touchDistance touchA touchB ∧
    pinchOutState.previousTouchDistance - touchDistance touchA touchB < 0 ∧
    (10 : ℝ) ≤ zoom 10 10 ∧
    zoom (-10) 10 ≤ 10 ∧
    pinchOutState.targetZoom ≤ maxZoom ∧
    (onTouchMove [touchA, touchB] pinchOutState).2.targetZoom ≤ pinchOutState.targetZoom :=
  ⟨c7_pinch_sign.2.1 touchA touchB pinchState
      (by rw [touchDistance_AB]; show (90 : ℝ) < 100; norm_num),
    c7_pinch_sign.2.2.1 touchA touchB pinchOutState
      (by rw [touchDistance_AB]; show (50 : ℝ) < 90; norm_num),
    c7_pinch_sign.2.2.2.1 10 10 (by norm_num) (by norm_num [minZoom]) (by norm_num [maxZoom]),
    c7_pinch_sign.2.2.2.2.1 (-10) 10 (by norm_num) (by norm_num [minZoom]) (by norm_num [maxZoom]),
    by show (10 : ℝ) ≤ maxZoom; norm_num [maxZoom],
    c7_pinch_sign.2.2.2.2.2.2.2 touchA touchB pinchOutState
      (by rw [touchDistance_AB]; show (50 : ℝ) < 90; norm_num)
      (by show minZoom ≤ (10 : ℝ); norm_num [minZoom])
      (by show (10 : ℝ) ≤ maxZoom; norm_num [maxZoom])⟩

/-- Claim C8 (confirmed): a frame ticked while a drag is active leaves
the group orientation untouched (no auto-spin increment on either Euler
component; ticks never compose drag rotations, which happen only in the
drag event handler), while the same tick still advances the layer
rotation scheduler and applies the zoom smoothing step. -/
theorem c8_no_autospin_while_dragging (time : ℤ) (s : FrameState)
    (h : s.isDragging = true) :
    (tick time s).rotX = s.rotX ∧ (tick time s).rotY = s.rotY ∧
    (tick time s).sched = schedStep time s.sched ∧
    (tick time s).currentZoom = smoothZoomStep s.targetZoom s.currentZoom := by
  refine ⟨?_, ?_, rfl, rfl⟩ <;> simp [tick, h]

/-- Claim C8 witness: the dragging frame state frameEx. -/
theorem c8_no_autospin_while_dragging_wit :
    (tick 0 frameEx).rotX = frameEx.rotX ∧ (tick 0 frameEx).rotY = frameEx.rotY ∧
    (tick 0 frameEx).sched = schedStep 0 frameEx.sched ∧
    (tick 0 frameEx).currentZoom = smoothZoomStep frameEx.targetZoom frameEx.currentZoom :=
  c8_no_autospin_while_dragging 0 frameEx rfl

/-- Claim C9, counterexample: a two-finger touch-start and a two-finger
touch-move do NOT call preventDefault (only the single-touch branches
do), so not every invocation of the touch handlers suppresses the
platform default. -/
theorem c9_counterexample :
    (onTouchStart [touchA, touchB] uiInit).1 = false ∧
    (onTouchMove [touchA, touchB] uiInit).1 = false :=
  ⟨rfl, rfl⟩

/-- Claim C9, amended: the wheel handler calls preventDefault on every
invocation, but the touch-start and touch-move handlers call it exactly
when the event carries a single touch point; two-finger (and empty or
3+-finger) touch events are not default-suppressed. -/
theorem c9_preventDefault_policy :
    (∀ (deltaY : ℝ) (s : UIState), (onWheel deltaY s).1 = true) ∧
    (∀ (touches : List Touch) (s : UIState),
        (onTouchStart touches s).1 = (touches.length == 1)) ∧
    (∀ (touches : List Touch) (s : UIState),
        (onTouchMove touches s).1 = (touches.length == 1)) := by
  refine ⟨fun _ _ => rfl, fun ts s => ?_, fun ts s => ?_⟩ <;>
    rcases ts with _ | ⟨t0, _ | ⟨t1, _ | ⟨t2, r⟩⟩⟩ <;> rfl

/-- Claim C10 (confirmed): starting from the initial state, over any
monotone run of frame timestamps every row's stored rotation angle stays
in [0, pi/2]: while rotating it is progress * pi/2 with progress in
[0, 1), at a completion it is exactly pi/2, and a re-activated row is
overwritten from 0 again. -/
theorem c10_angles_in_range (ts : List ℤ) (hmono : ticksMonoB (0 :: ts) = true) (i : ℕ) :
    0 ≤ angleY i (schedSim ts).1 ∧ angleY i (schedSim ts).1 ≤ Real.pi / 2 := by
  have hinv : SchedInv (schedSim ts).1 :=
    schedSimFrom_inv ts (initSched, []) 0 SchedInv_initSched (le_refl 0) hmono
  obtain ⟨h0, h1⟩ := rotC_of_SchedInv hinv i
  unfold angleY
  constructor
  · apply mul_nonneg
    · exact_mod_cast h0
    · positivity
  · have hcast : ((rotC i (schedSim ts).1 : ℤ) : ℝ) ≤ 1000 := by
      exact_mod_cast (by simpa [rotationDuration] using h1 : rotC i (schedSim ts).1 ≤ 1000)
    calc ((rotC i (schedSim ts).1 : ℤ) : ℝ) * (Real.pi / 2000)
        ≤ 1000 * (Real.pi / 2000) :=
          mul_le_mul_of_nonneg_right hcast (by positivity)
      _ = Real.pi / 2 := by ring

/-- Claim C10 witness: a concrete monotone run reaching mid-rotation. -/
theorem c10_angles_in_range_wit :
    0 ≤ angleY 0 (schedSim [0, 3100, 4100]).1 ∧
      angleY 0 (schedSim [0, 3100, 4100]).1 ≤ Real.pi / 2 :=
  c10_angles_in_range [0, 3100, 4100] (by decide) 0

end CubeGrid
